import Mathlib

/-!
Verification of the generic-substitution engine from
`src/librustc/middle/subst.rs` (type substitutions in a compiler's middle
layer), as a shallow embedding in Lean 4.

The file `subst.rs` is the source of authority for `Substs` (the
substitution table), `RegionSubsts` (the region-substitution mode),
`Subst::subst` / `subst_spanned` (dispatch), and `SubstFolder`'s
`fold_region` / `fold_ty` (the algorithm).  The type and region
representations (`middle/ty.rs`) and the generic traversal framework
(`middle/ty_fold.rs`) are external collaborators of this module and are not
part of the repository snapshot; they are modelled from the spec where
noted.

Fallible behaviour (the `assert_eq!`, `Vec::get` out-of-bounds task
failure, and `Option::unwrap` on `None`) is modelled with `Option` /
`Except`, where `none` / `.error` means the call aborts fatally.
Diagnostic emission through `tcx.sess.span_err` / `tcx.sess.err` is
modelled by an error counter carried on the folder.
-/

/-- Modelled from the spec: regions (lifetimes) of the external type
representation.  `ReEarlyBound` carries a declaration node id, a
declaration index, and a name, matching `ty::ReEarlyBound(node_id, index,
name)`; the remaining constructors stand for the region kinds this engine
never rewrites (late-bound, free, scope, static, inference variables, the
empty region). -/
inductive Region where
  | ReEarlyBound (nodeId : Nat) (index : Nat) (name : Nat)
  | ReLateBound (binderId : Nat) (boundRegion : Nat)
  | ReFree (scopeId : Nat) (boundRegion : Nat)
  | ReScope (nodeId : Nat)
  | ReStatic
  | ReInfer (vid : Nat)
  | ReEmpty
deriving DecidableEq

/-- `r.isEarlyBound` holds exactly for `ReEarlyBound` regions, the only
region kind the substitution engine rewrites. -/
def Region.isEarlyBound : Region → Bool
  | .ReEarlyBound _ _ _ => true
  | _ => false

/-- `RegionSubsts`: the values to use when substituting lifetime
parameters.  `ErasedRegions` means the substitution occurs during trans
and every early-bound region is replaced with `ty::ReStatic`;
`NonerasedRegions` carries the concrete region values, indexed by
declaration order. -/
inductive RegionSubsts where
  | ErasedRegions
  | NonerasedRegions (regions : List Region)
deriving DecidableEq

/-- Modelled from the spec: types of the external type representation.
The three leaf reference kinds the engine intercepts are `ty_param`
(a type-parameter reference carrying a declaration index), `ty_self`
(the self-type sentinel) and, inside `ty_rptr`, an embedded region.
`ty_err` is the error placeholder produced by `ty::mk_err()`.  `ty_int`
is a representative parameter-free atomic type, and `ty_rptr`,
`ty_tup` and `ty_bare_fn` are representative compound shapes whose
children the traversal framework rebuilds generically. -/
inductive Ty where
  | ty_int
  | ty_err
  | ty_param (idx : Nat)
  | ty_self
  | ty_rptr (r : Region) (elem : Ty)
  | ty_tup (a : Ty) (b : Ty)
  | ty_bare_fn (input : Ty) (output : Ty)
deriving DecidableEq

/-- Modelled from the spec: `ty::type_needs_subst`, the cached
needs-substitution flag of the external type representation — true exactly
when the type contains a type-parameter reference, a self-type reference,
or an early-bound region reference anywhere within it. -/
def type_needs_subst : Ty → Bool
  | .ty_param _ => true
  | .ty_self => true
  | .ty_rptr r elem => r.isEarlyBound || type_needs_subst elem
  | .ty_tup a b => type_needs_subst a || type_needs_subst b
  | .ty_bare_fn a b => type_needs_subst a || type_needs_subst b
  | .ty_int => false
  | .ty_err => false

/-- `Substs`: the substitution table — an optional self-type, the type
parameters in scope indexed by declaration order, and the region
substitution values. -/
structure Substs where
  self_ty : Option Ty
  tps : List Ty
  regions : RegionSubsts
deriving DecidableEq

/-- `Substs::empty()`: no self-type, no type parameters, concrete but
empty region list. -/
def Substs.empty : Substs :=
  { self_ty := none, tps := [], regions := .NonerasedRegions [] }

/-- `Substs::trans_empty()` (the spec calls it `erased_empty()`): like
`empty` but with erased regions. -/
def Substs.trans_empty : Substs :=
  { self_ty := none, tps := [], regions := .ErasedRegions }

/-- `Substs::is_noop()`: erased regions are never a no-op (they may be
used to canonicalize); nonerased regions are a no-op when the list is
empty; the whole table is a no-op when additionally `tps` is empty and
`self_ty` is absent. -/
def Substs.is_noop (s : Substs) : Bool :=
  let regions_is_noop :=
    match s.regions with
    | .ErasedRegions => false
    | .NonerasedRegions regions => regions.isEmpty
  s.tps.length == 0 && regions_is_noop && s.self_ty.isNone

/-- The panic message of `Option::unwrap` on `None`. -/
def unwrapNoneMsg : String := "called unwrap on a None value"

/-- `Substs::self_ty()`: `self.self_ty.unwrap()` — returns the stored
self-type, and fails fatally (modelled as `Except.error`) when it is
absent. -/
def Substs.self_ty_unwrap (s : Substs) : Except String Ty :=
  match s.self_ty with
  | some t => .ok t
  | none => .error unwrapNoneMsg

/-- `SubstFolder`: the bound table, the optional source location for
diagnostics, the root type being substituted, and the depth of the type
stack.  `errCount` models the number of diagnostics emitted so far through
`tcx.sess.span_err` / `tcx.sess.err` (the diagnostic sink of the type
context). -/
structure SubstFolder where
  substs : Substs
  span : Option Nat
  root_ty : Option Ty
  ty_stack_depth : Nat
  errCount : Nat
deriving DecidableEq

/-- Emitting one diagnostic: `self.tcx.sess.span_err(span, m)` when a span
is bound, `self.tcx.sess.err(m)` otherwise — either way exactly one
diagnostic reaches the sink. -/
def emitError (f : SubstFolder) : SubstFolder :=
  { f with errCount := f.errCount + 1 }

/-- `SubstFolder::fold_region`: an early-bound region is replaced with
`ReStatic` under erased regions, and with `*regions.get(i)` under
nonerased regions — `Vec::get` fails the task on an out-of-bounds index,
modelled as `none`.  Every other region kind passes through unchanged. -/
def SubstFolder.fold_region (f : SubstFolder) (r : Region) : Option Region :=
  match r with
  | .ReEarlyBound _ i _ =>
    match f.substs.regions with
    | .ErasedRegions => some .ReStatic
    | .NonerasedRegions regions => regions[i]?
  | _ => some r

/-- The entry bookkeeping of `fold_ty`: record the root type when the
depth is 0, then increment the depth of the type stack. -/
def pushStep (f : SubstFolder) (t : Ty) : SubstFolder :=
  let f0 := if f.ty_stack_depth = 0 then { f with root_ty := some t } else f
  { f0 with ty_stack_depth := f0.ty_stack_depth + 1 }

/-- The exit bookkeeping of `fold_ty`: `assert_eq!(depth + 1,
self.ty_stack_depth)` (`none` models the assertion failing the task),
decrement the depth, and clear the root type when the entry depth was 0. -/
def popStep (depth : Nat) (f : SubstFolder) : Option SubstFolder :=
  if f.ty_stack_depth = depth + 1 then
    some { f with ty_stack_depth := f.ty_stack_depth - 1,
                  root_ty := if depth = 0 then none else f.root_ty }
  else none

/-- `SubstFolder::fold_ty`.  Fast path: a type that does not need
substitution is returned unchanged at once.  Otherwise: push, dispatch on
the shape — a `ty_param` with an in-bounds index is replaced verbatim by
`*self.substs.tps.get(p.idx)`, an out-of-bounds index emits one diagnostic
and produces `ty::mk_err()`; `ty_self` is replaced by the table's self
type, or emits one diagnostic and produces `ty::mk_err()` when that is
absent; every other shape goes through `ty_fold::super_fold_ty`, modelled
from the spec as rebuilding the compound shape from its recursively folded
children (regions through `fold_region`, types through `fold_ty`) — then
pop. -/
def SubstFolder.fold_ty (f : SubstFolder) (t : Ty) : Option (Ty × SubstFolder) :=
  if type_needs_subst t = false then some (t, f) else
  let depth := f.ty_stack_depth
  let fIn := pushStep f t
  let res : Option (Ty × SubstFolder) :=
    match t with
    | .ty_param i =>
      if h : i < f.substs.tps.length then
        some (f.substs.tps.get ⟨i, h⟩, fIn)
      else
        some (.ty_err, emitError fIn)
    | .ty_self =>
      match f.substs.self_ty with
      | some ty => some (ty, fIn)
      | none => some (.ty_err, emitError fIn)
    | .ty_rptr r elem =>
      match fIn.fold_region r with
      | none => none
      | some r2 =>
        match fIn.fold_ty elem with
        | none => none
        | some (e2, f2) => some (.ty_rptr r2 e2, f2)
    | .ty_tup a b =>
      match fIn.fold_ty a with
      | none => none
      | some (a2, f2) =>
        match f2.fold_ty b with
        | none => none
        | some (b2, f3) => some (.ty_tup a2 b2, f3)
    | .ty_bare_fn a b =>
      match fIn.fold_ty a with
      | none => none
      | some (a2, f2) =>
        match f2.fold_ty b with
        | none => none
        | some (b2, f3) => some (.ty_bare_fn a2 b2, f3)
    | other => some (other, fIn)
  match res with
  | none => none
  | some (t1, fOut) =>
    match popStep depth fOut with
    | none => none
    | some fFin => some (t1, fFin)

/-- `subst_spanned` builds a fresh folder: bound table and span, no root
type, depth 0 (and no diagnostics emitted yet). -/
def newFolder (s : Substs) (span : Option Nat) : SubstFolder :=
  { substs := s, span := span, root_ty := none, ty_stack_depth := 0, errCount := 0 }

/-- `Subst::subst_spanned` on a type: drive the folder over it. -/
def subst_spanned (s : Substs) (span : Option Nat) (t : Ty) : Option (Ty × SubstFolder) :=
  (newFolder s span).fold_ty t

/-- `Subst::subst`: `subst_spanned` with no span. -/
def subst (s : Substs) (t : Ty) : Option (Ty × SubstFolder) :=
  subst_spanned s none t

/-- The folder state after a leaf substitution returns: the depth is
restored, and the root type is cleared when the call was the depth-0
entry. -/
def leafExit (f : SubstFolder) : SubstFolder :=
  { f with root_ty := if f.ty_stack_depth = 0 then none else f.root_ty }

-- Helper lemmas about the push/pop bookkeeping.

theorem pushStep_substs (f : SubstFolder) (t : Ty) : (pushStep f t).substs = f.substs := by
  simp only [pushStep]
  split <;> rfl

theorem pushStep_depth (f : SubstFolder) (t : Ty) :
    (pushStep f t).ty_stack_depth = f.ty_stack_depth + 1 := by
  simp only [pushStep]
  split <;> rfl

theorem pushStep_root_of_ne (f : SubstFolder) (t : Ty) (h : f.ty_stack_depth ≠ 0) :
    (pushStep f t).root_ty = f.root_ty := by
  simp only [pushStep]
  split
  · omega
  · rfl

theorem popStep_some (d : Nat) (g g' : SubstFolder) (h : popStep d g = some g') :
    g'.ty_stack_depth = d ∧
    g'.root_ty = (if d = 0 then none else g.root_ty) ∧
    g'.substs = g.substs ∧ g'.errCount = g.errCount := by
  simp only [popStep] at h
  split at h
  · next hg =>
    cases h
    refine ⟨by simp [hg], rfl, rfl, rfl⟩
  · cases h

theorem fold_region_pushStep (f : SubstFolder) (t : Ty) (r : Region) :
    (pushStep f t).fold_region r = f.fold_region r := by
  cases r <;> simp [SubstFolder.fold_region, pushStep_substs]

/-- Shared helper: a type whose needs-substitution flag is false is
returned unchanged by `fold_ty`, with the folder untouched. -/
theorem fold_ty_of_not_needs (f : SubstFolder) (t : Ty)
    (h : type_needs_subst t = false) : f.fold_ty t = some (t, f) := by
  cases t <;> simp_all [SubstFolder.fold_ty]

/-- C3: under `ErasedRegions` mode, `fold_region` maps every early-bound
region — whatever its node id, index (in particular any out-of-bounds
index) and name — to the static region sentinel, returning successfully
(no failure, and `fold_region` has no diagnostic channel at all). -/
theorem fold_region_erased_static (f : SubstFolder)
    (h : f.substs.regions = RegionSubsts.ErasedRegions) (nid i nm : Nat) :
    f.fold_region (Region.ReEarlyBound nid i nm) = some Region.ReStatic := by
  simp [SubstFolder.fold_region, h]

/-- Witness for C3 at a concrete erased table and the out-of-bounds
index 99. -/
theorem fold_region_erased_static_witness :
    (newFolder Substs.trans_empty none).substs.regions = RegionSubsts.ErasedRegions ∧
    (newFolder Substs.trans_empty none).fold_region (Region.ReEarlyBound 0 99 7) =
      some Region.ReStatic :=
  ⟨rfl, fold_region_erased_static (newFolder Substs.trans_empty none) rfl 0 99 7⟩

/-- C4: under `NonerasedRegions rs`, an early-bound region with an
in-bounds index `i` is replaced by the `i`-th element of `rs`, and every
region that is not an early-bound reference (late-bound, free, scope,
static, inference, empty) passes through `fold_region` unchanged. -/
theorem fold_region_concrete_spec (f : SubstFolder) (rs : List Region)
    (h : f.substs.regions = RegionSubsts.NonerasedRegions rs) :
    (∀ (nid i nm : Nat) (hi : i < rs.length),
        f.fold_region (Region.ReEarlyBound nid i nm) = some (rs.get ⟨i, hi⟩)) ∧
    (∀ r : Region, r.isEarlyBound = false → f.fold_region r = some r) := by
  constructor
  · intro nid i nm hi
    simp [SubstFolder.fold_region, h, List.getElem?_eq_getElem hi]
  · intro r hr
    cases r <;> simp_all [SubstFolder.fold_region, Region.isEarlyBound]

/-- Concrete table for the C4 witness: `regions = [ReScope 5, ReEmpty]`. -/
def substsC4 : Substs :=
  { self_ty := none, tps := [],
    regions := RegionSubsts.NonerasedRegions [Region.ReScope 5, Region.ReEmpty] }

/-- Witness for C4: index 1 yields the second region of the table, and a
late-bound region passes through unchanged. -/
theorem fold_region_concrete_spec_witness :
    (newFolder substsC4 none).fold_region (Region.ReEarlyBound 0 1 0) =
      some Region.ReEmpty ∧
    (newFolder substsC4 none).fold_region (Region.ReLateBound 3 4) =
      some (Region.ReLateBound 3 4) :=
  ⟨(fold_region_concrete_spec (newFolder substsC4 none)
      [Region.ReScope 5, Region.ReEmpty] rfl).1 0 1 0 (by decide),
   (fold_region_concrete_spec (newFolder substsC4 none)
      [Region.ReScope 5, Region.ReEmpty] rfl).2 (Region.ReLateBound 3 4) rfl⟩

/-- C10: under `NonerasedRegions rs`, an early-bound region whose index is
out of bounds of `rs` makes `fold_region` fail fatally (`none`, modelling
the task failure of the unguarded `*regions.get(i)`) — there is no
recoverable branch: no placeholder region is produced and no diagnostic is
emitted, and the failure propagates through `fold_ty` on a type containing
such a region, which also returns `none` rather than a placeholder. -/
theorem fold_region_concrete_oob_fatal (f : SubstFolder) (rs : List Region)
    (h : f.substs.regions = RegionSubsts.NonerasedRegions rs)
    (nid i nm : Nat) (hi : rs.length ≤ i) :
    f.fold_region (Region.ReEarlyBound nid i nm) = none ∧
    f.fold_ty (Ty.ty_rptr (Region.ReEarlyBound nid i nm) Ty.ty_int) = none := by
  have hr : f.fold_region (Region.ReEarlyBound nid i nm) = none := by
    simp [SubstFolder.fold_region, h, List.getElem?_eq_none hi]
  refine ⟨hr, ?_⟩
  simp only [SubstFolder.fold_ty, type_needs_subst, Region.isEarlyBound,
    Bool.true_or, fold_region_pushStep, hr]
  rfl

/-- Witness for C10: the empty concrete table and region index 0. -/
theorem fold_region_concrete_oob_fatal_witness :
    (newFolder Substs.empty none).fold_region (Region.ReEarlyBound 0 0 0) = none ∧
    (newFolder Substs.empty none).fold_ty
      (Ty.ty_rptr (Region.ReEarlyBound 0 0 0) Ty.ty_int) = none :=
  fold_region_concrete_oob_fatal (newFolder Substs.empty none) [] rfl 0 0 0
    (by decide)

/-- C6: `is_noop` holds exactly when `tps` is empty, `self_ty` is absent
and the region mode is `NonerasedRegions []`; consequently `empty()` is a
no-op while `trans_empty()` (the spec's `erased_empty()`), being in erased
mode, is not. -/
theorem is_noop_iff :
    (∀ s : Substs, s.is_noop = true ↔
      (s.tps = [] ∧ s.self_ty = none ∧
        s.regions = RegionSubsts.NonerasedRegions [])) ∧
    Substs.empty.is_noop = true ∧ Substs.trans_empty.is_noop = false := by
  refine ⟨?_, rfl, rfl⟩
  intro s
  obtain ⟨st, tps, regs⟩ := s
  cases regs <;>
    simp [Substs.is_noop, List.isEmpty_iff, List.length_eq_zero,
      Option.isNone_iff_eq_none]
  tauto

/-- Witness for C6: the biconditional applied to the concrete table
`empty()`, together with the two concrete evaluations. -/
theorem is_noop_iff_witness :
    Substs.empty.is_noop = true ∧ Substs.trans_empty.is_noop = false :=
  ⟨(is_noop_iff.1 Substs.empty).mpr ⟨rfl, rfl, rfl⟩, is_noop_iff.2.2⟩

/-- C9: the `self_ty()` accessor returns the stored self-type whenever one
is present (so the fatal branch is unreachable under that precondition),
and fails fatally — `Except.error`, modelling the `unwrap` panic, with no
recovery and no placeholder — when the self-type is absent. -/
theorem self_ty_unwrap_spec (s : Substs) :
    (∀ t : Ty, s.self_ty = some t → s.self_ty_unwrap = Except.ok t) ∧
    (s.self_ty = none → s.self_ty_unwrap = Except.error unwrapNoneMsg) := by
  constructor
  · intro t h
    simp [Substs.self_ty_unwrap, h]
  · intro h
    simp [Substs.self_ty_unwrap, h]

/-- Concrete table for the C9 witness: a table carrying a self-type. -/
def substsC9 : Substs :=
  { self_ty := some Ty.ty_int, tps := [],
    regions := RegionSubsts.NonerasedRegions [] }

/-- Witness for C9: the accessor on a table with a self-type, and on a
table without one. -/
theorem self_ty_unwrap_spec_witness :
    substsC9.self_ty_unwrap = Except.ok Ty.ty_int ∧
    Substs.empty.self_ty_unwrap = Except.error unwrapNoneMsg :=
  ⟨(self_ty_unwrap_spec substsC9).1 Ty.ty_int rfl,
   (self_ty_unwrap_spec Substs.empty).2 rfl⟩

/-- C8: a type whose needs-substitution flag is false (it contains no
type-parameter, self, or early-bound-region reference) is returned by
`fold_ty` unchanged and immediately: the folder — including its diagnostic
count, root type and depth — is untouched, and the result does not depend
on the table, which is quantified over every folder (so over every table,
trivial or not). -/
theorem fold_ty_fast_path (f : SubstFolder) (t : Ty)
    (h : type_needs_subst t = false) : f.fold_ty t = some (t, f) :=
  fold_ty_of_not_needs f t h

/-- Non-trivial table for the C8 witness. -/
def substsC8 : Substs :=
  { self_ty := some Ty.ty_int, tps := [Ty.ty_int],
    regions := RegionSubsts.ErasedRegions }

/-- Witness for C8: a parameter-free compound type against a non-trivial
table. -/
theorem fold_ty_fast_path_witness :
    type_needs_subst (Ty.ty_tup Ty.ty_int Ty.ty_err) = false ∧
    (newFolder substsC8 (some 3)).fold_ty (Ty.ty_tup Ty.ty_int Ty.ty_err) =
      some (Ty.ty_tup Ty.ty_int Ty.ty_err, newFolder substsC8 (some 3)) :=
  ⟨rfl, fold_ty_fast_path (newFolder substsC8 (some 3))
    (Ty.ty_tup Ty.ty_int Ty.ty_err) rfl⟩

/-- Shared helper: an in-bounds type-parameter reference is replaced by
the corresponding table entry, verbatim. -/
theorem fold_ty_param_in (f : SubstFolder) (i : Nat)
    (h : i < f.substs.tps.length) :
    f.fold_ty (Ty.ty_param i) = some (f.substs.tps.get ⟨i, h⟩, leafExit f) := by
  by_cases hd : f.ty_stack_depth = 0 <;>
    simp [SubstFolder.fold_ty, type_needs_subst, pushStep, popStep,
      leafExit, hd, h]

/-- Shared helper: an out-of-bounds type-parameter reference produces the
error placeholder and one diagnostic. -/
theorem fold_ty_param_out (f : SubstFolder) (i : Nat)
    (h : f.substs.tps.length ≤ i) :
    f.fold_ty (Ty.ty_param i) = some (Ty.ty_err, emitError (leafExit f)) := by
  have h' : ¬ i < f.substs.tps.length := by omega
  by_cases hd : f.ty_stack_depth = 0 <;>
    simp [SubstFolder.fold_ty, type_needs_subst, pushStep, popStep,
      leafExit, emitError, hd, h']

/-- Shared helper: a self-reference is replaced by the table's self-type
when present. -/
theorem fold_ty_self_some (f : SubstFolder) (S : Ty)
    (h : f.substs.self_ty = some S) :
    f.fold_ty Ty.ty_self = some (S, leafExit f) := by
  by_cases hd : f.ty_stack_depth = 0 <;>
    simp [SubstFolder.fold_ty, type_needs_subst, pushStep, popStep,
      leafExit, hd, h]

/-- Shared helper: a self-reference with no bound self-type produces the
error placeholder and one diagnostic. -/
theorem fold_ty_self_none (f : SubstFolder)
    (h : f.substs.self_ty = none) :
    f.fold_ty Ty.ty_self = some (Ty.ty_err, emitError (leafExit f)) := by
  by_cases hd : f.ty_stack_depth = 0 <;>
    simp [SubstFolder.fold_ty, type_needs_subst, pushStep, popStep,
      leafExit, emitError, hd, h]

/-- C1: substituting a type-parameter reference with index `i` against a
table whose `tps` has length `n`: if `i < n` the result is the `i`-th
entry of `tps`, inserted verbatim (`tps` and so its entries are arbitrary
here, in particular entries containing further parameter references are
not re-substituted), the folder emits no diagnostic and its depth and
root are restored; if `n ≤ i` the result is the error placeholder
`ty_err` and exactly one diagnostic is emitted. -/
theorem fold_ty_param_spec (f : SubstFolder) (i : Nat) :
    (∀ h : i < f.substs.tps.length,
        f.fold_ty (Ty.ty_param i) =
          some (f.substs.tps.get ⟨i, h⟩, leafExit f)) ∧
    (f.substs.tps.length ≤ i →
        f.fold_ty (Ty.ty_param i) = some (Ty.ty_err, emitError (leafExit f))) :=
  ⟨fun h => fold_ty_param_in f i h, fun h => fold_ty_param_out f i h⟩

/-- Concrete table for the C1 witness: `tps = [ty_int, ty_param 7,
ty_int]`; entry 1 contains a parameter reference, so its verbatim
insertion shows the replacement is not re-substituted. -/
def substsC1 : Substs :=
  { self_ty := none, tps := [Ty.ty_int, Ty.ty_param 7, Ty.ty_int],
    regions := RegionSubsts.NonerasedRegions [] }

/-- Witness for C1: index 1 yields entry 1 verbatim; index 3 yields the
error placeholder with exactly one diagnostic. -/
theorem fold_ty_param_spec_witness :
    (newFolder substsC1 none).fold_ty (Ty.ty_param 1) =
      some (Ty.ty_param 7, leafExit (newFolder substsC1 none)) ∧
    (newFolder substsC1 none).fold_ty (Ty.ty_param 3) =
      some (Ty.ty_err, emitError (leafExit (newFolder substsC1 none))) :=
  ⟨(fold_ty_param_spec (newFolder substsC1 none) 1).1 (by decide),
   (fold_ty_param_spec (newFolder substsC1 none) 3).2 (by decide)⟩

/-- C2: substituting a self-type reference: when the table's `self_ty` is
`some S` the result is `S` with no diagnostic; when it is absent the
result is the error placeholder `ty_err` with exactly one diagnostic
emitted — and in both cases the call still returns a structurally
complete value (`some`, never the fatal `none`). -/
theorem fold_ty_self_spec (f : SubstFolder) :
    (∀ S : Ty, f.substs.self_ty = some S →
        f.fold_ty Ty.ty_self = some (S, leafExit f)) ∧
    (f.substs.self_ty = none →
        f.fold_ty Ty.ty_self = some (Ty.ty_err, emitError (leafExit f))) :=
  ⟨fun S h => fold_ty_self_some f S h, fun h => fold_ty_self_none f h⟩

/-- Witness for C2: a self-reference against a table with `self_ty =
some ty_int`, and against a table with no self-type. -/
theorem fold_ty_self_spec_witness :
    (newFolder substsC9 none).fold_ty Ty.ty_self =
      some (Ty.ty_int, leafExit (newFolder substsC9 none)) ∧
    (newFolder Substs.empty none).fold_ty Ty.ty_self =
      some (Ty.ty_err, emitError (leafExit (newFolder Substs.empty none))) :=
  ⟨(fold_ty_self_spec (newFolder substsC9 none)).1 Ty.ty_int rfl,
   (fold_ty_self_spec (newFolder Substs.empty none)).2 rfl⟩

/-- Shared helper: whenever `fold_ty` returns, the depth of the type stack
is restored to its entry value; the recorded root type is preserved when
the entry depth is non-zero, and at entry depth 0 it is either untouched
(fast path) or cleared. -/
theorem fold_ty_preserves (t : Ty) :
    ∀ (f f' : SubstFolder) (t' : Ty), f.fold_ty t = some (t', f') →
      f'.ty_stack_depth = f.ty_stack_depth ∧
      (f.ty_stack_depth ≠ 0 → f'.root_ty = f.root_ty) ∧
      (f.ty_stack_depth = 0 → f'.root_ty = none ∨ f'.root_ty = f.root_ty) := by
  induction t with
  | ty_int =>
    intro f f' t' h
    rw [fold_ty_of_not_needs f Ty.ty_int rfl] at h
    simp only [Option.some.injEq, Prod.mk.injEq] at h
    obtain ⟨-, rfl⟩ := h
    simp
  | ty_err =>
    intro f f' t' h
    rw [fold_ty_of_not_needs f Ty.ty_err rfl] at h
    simp only [Option.some.injEq, Prod.mk.injEq] at h
    obtain ⟨-, rfl⟩ := h
    simp
  | ty_param idx =>
    intro f f' t' h
    by_cases hi : idx < f.substs.tps.length
    · rw [fold_ty_param_in f idx hi] at h
      simp only [Option.some.injEq, Prod.mk.injEq] at h
      obtain ⟨-, rfl⟩ := h
      exact ⟨rfl, fun hd => by simp [leafExit, hd], fun hd => Or.inl (by simp [leafExit, hd])⟩
    · rw [fold_ty_param_out f idx (by omega)] at h
      simp only [Option.some.injEq, Prod.mk.injEq] at h
      obtain ⟨-, rfl⟩ := h
      exact ⟨rfl, fun hd => by simp [emitError, leafExit, hd],
        fun hd => Or.inl (by simp [emitError, leafExit, hd])⟩
  | ty_self =>
    intro f f' t' h
    cases hs : f.substs.self_ty with
    | some S =>
      rw [fold_ty_self_some f S hs] at h
      simp only [Option.some.injEq, Prod.mk.injEq] at h
      obtain ⟨-, rfl⟩ := h
      exact ⟨rfl, fun hd => by simp [leafExit, hd], fun hd => Or.inl (by simp [leafExit, hd])⟩
    | none =>
      rw [fold_ty_self_none f hs] at h
      simp only [Option.some.injEq, Prod.mk.injEq] at h
      obtain ⟨-, rfl⟩ := h
      exact ⟨rfl, fun hd => by simp [emitError, leafExit, hd],
        fun hd => Or.inl (by simp [emitError, leafExit, hd])⟩
  | ty_rptr r elem ih =>
    intro f f' t' h
    cases hn : type_needs_subst (Ty.ty_rptr r elem) with
    | false =>
      rw [fold_ty_of_not_needs f _ hn] at h
      simp only [Option.some.injEq, Prod.mk.injEq] at h
      obtain ⟨-, rfl⟩ := h
      simp
    | true =>
      rcases hr2 : (pushStep f (Ty.ty_rptr r elem)).fold_region r with _ | r2
      · simp [SubstFolder.fold_ty, hn, hr2] at h
      · rcases hfe : (pushStep f (Ty.ty_rptr r elem)).fold_ty elem with _ | ⟨e2, f2⟩
        · simp [SubstFolder.fold_ty, hn, hr2, hfe] at h
        · have hpd := pushStep_depth f (Ty.ty_rptr r elem)
          have h2d : f2.ty_stack_depth = f.ty_stack_depth + 1 := by
            rw [(ih _ _ _ hfe).1, hpd]
          have h2r : f2.root_ty = (pushStep f (Ty.ty_rptr r elem)).root_ty :=
            (ih _ _ _ hfe).2.1 (by rw [hpd]; omega)
          simp [SubstFolder.fold_ty, hn, hr2, hfe, popStep, h2d] at h
          obtain ⟨-, rfl⟩ := h
          refine ⟨by simp [h2d], fun hd => ?_, fun hd => Or.inl (by simp [hd])⟩
          simp [hd, h2r, pushStep_root_of_ne f _ hd]
  | ty_tup a b iha ihb =>
    intro f f' t' h
    cases hn : type_needs_subst (Ty.ty_tup a b) with
    | false =>
      rw [fold_ty_of_not_needs f _ hn] at h
      simp only [Option.some.injEq, Prod.mk.injEq] at h
      obtain ⟨-, rfl⟩ := h
      simp
    | true =>
      rcases hfa : (pushStep f (Ty.ty_tup a b)).fold_ty a with _ | ⟨a2, f2⟩
      · simp [SubstFolder.fold_ty, hn, hfa] at h
      · rcases hfb : f2.fold_ty b with _ | ⟨b2, f3⟩
        · simp [SubstFolder.fold_ty, hn, hfa, hfb] at h
        · have hpd := pushStep_depth f (Ty.ty_tup a b)
          have h2d : f2.ty_stack_depth = f.ty_stack_depth + 1 := by
            rw [(iha _ _ _ hfa).1, hpd]
          have h3d : f3.ty_stack_depth = f.ty_stack_depth + 1 := by
            rw [(ihb _ _ _ hfb).1, h2d]
          have h2r : f2.root_ty = (pushStep f (Ty.ty_tup a b)).root_ty :=
            (iha _ _ _ hfa).2.1 (by rw [hpd]; omega)
          have h3r : f3.root_ty = f2.root_ty :=
            (ihb _ _ _ hfb).2.1 (by rw [h2d]; omega)
          simp [SubstFolder.fold_ty, hn, hfa, hfb, popStep, h3d] at h
          obtain ⟨-, rfl⟩ := h
          refine ⟨by simp [h3d], fun hd => ?_, fun hd => Or.inl (by simp [hd])⟩
          simp [hd, h3r, h2r, pushStep_root_of_ne f _ hd]
  | ty_bare_fn a b iha ihb =>
    intro f f' t' h
    cases hn : type_needs_subst (Ty.ty_bare_fn a b) with
    | false =>
      rw [fold_ty_of_not_needs f _ hn] at h
      simp only [Option.some.injEq, Prod.mk.injEq] at h
      obtain ⟨-, rfl⟩ := h
      simp
    | true =>
      rcases hfa : (pushStep f (Ty.ty_bare_fn a b)).fold_ty a with _ | ⟨a2, f2⟩
      · simp [SubstFolder.fold_ty, hn, hfa] at h
      · rcases hfb : f2.fold_ty b with _ | ⟨b2, f3⟩
        · simp [SubstFolder.fold_ty, hn, hfa, hfb] at h
        · have hpd := pushStep_depth f (Ty.ty_bare_fn a b)
          have h2d : f2.ty_stack_depth = f.ty_stack_depth + 1 := by
            rw [(iha _ _ _ hfa).1, hpd]
          have h3d : f3.ty_stack_depth = f.ty_stack_depth + 1 := by
            rw [(ihb _ _ _ hfb).1, h2d]
          have h2r : f2.root_ty = (pushStep f (Ty.ty_bare_fn a b)).root_ty :=
            (iha _ _ _ hfa).2.1 (by rw [hpd]; omega)
          have h3r : f3.root_ty = f2.root_ty :=
            (ihb _ _ _ hfb).2.1 (by rw [h2d]; omega)
          simp [SubstFolder.fold_ty, hn, hfa, hfb, popStep, h3d] at h
          obtain ⟨-, rfl⟩ := h
          refine ⟨by simp [h3d], fun hd => ?_, fun hd => Or.inl (by simp [hd])⟩
          simp [hd, h3r, h2r, pushStep_root_of_ne f _ hd]

/-- C7: after any call to `fold_ty` that returns (error branches
included), the folder's recursion depth equals its value before the call;
and after a depth-0 call (on a folder whose recorded root is `none`, as
`subst_spanned` constructs it) the recorded root type is back to `none` —
the strict push/pop discipline. -/
theorem fold_ty_depth_invariant (f : SubstFolder) (t t' : Ty)
    (f' : SubstFolder) (h : f.fold_ty t = some (t', f')) :
    f'.ty_stack_depth = f.ty_stack_depth ∧
    (f.ty_stack_depth = 0 → f.root_ty = none → f'.root_ty = none) := by
  obtain ⟨h1, -, h3⟩ := fold_ty_preserves t f f' t' h
  refine ⟨h1, fun hd hr => ?_⟩
  rcases h3 hd with h' | h'
  · exact h'
  · rw [h', hr]

/-- Concrete table for the C7 witness. -/
def substsC7 : Substs :=
  { self_ty := some Ty.ty_int, tps := [],
    regions := RegionSubsts.NonerasedRegions [] }

/-- Witness for C7: a depth-0 call on a nested type that takes the
self-substitution branch; depth and root return to their entry values. -/
theorem fold_ty_depth_invariant_witness :
    (newFolder substsC7 none).fold_ty (Ty.ty_tup Ty.ty_self Ty.ty_int) =
      some (Ty.ty_tup Ty.ty_int Ty.ty_int, newFolder substsC7 none) ∧
    ((newFolder substsC7 none).ty_stack_depth =
        (newFolder substsC7 none).ty_stack_depth ∧
      ((newFolder substsC7 none).ty_stack_depth = 0 →
        (newFolder substsC7 none).root_ty = none →
        (newFolder substsC7 none).root_ty = none)) :=
  ⟨by decide,
   fold_ty_depth_invariant (newFolder substsC7 none)
     (Ty.ty_tup Ty.ty_self Ty.ty_int) (Ty.ty_tup Ty.ty_int Ty.ty_int)
     (newFolder substsC7 none) (by decide)⟩

/-- C5 counterexample: the claim "for every entity `e` and every table `t`
with `is_noop() = true`, `apply(e, t)` is structurally equal to `e`" is
false on the code: `Substs::empty()` is a no-op table, yet substituting the
entity `ty_param 0` against it takes the out-of-scope-parameter branch and
returns the error placeholder `ty_err`, not `ty_param 0`. -/
theorem subst_noop_identity_cex :
    ¬ (∀ (s : Substs) (e : Ty), s.is_noop = true →
        (subst s e).map Prod.fst = some e) := by
  intro hall
  have hx := hall Substs.empty (Ty.ty_param 0) (by decide)
  have hy : (subst Substs.empty (Ty.ty_param 0)).map Prod.fst =
      some Ty.ty_err := by decide
  rw [hy] at hx
  exact Ty.noConfusion (Option.some.inj hx)

/-- C5 (amended): for every table `t` with `is_noop() = true` and every
entity `e` that contains no type-parameter, self, or early-bound-region
reference, `apply(e, t)` returns a result structurally equal to `e` (and
the folder comes back exactly as constructed: no diagnostics). -/
theorem subst_noop_identity (s : Substs) (e : Ty)
    (_hs : s.is_noop = true) (he : type_needs_subst e = false) :
    subst s e = some (e, newFolder s none) := by
  unfold subst subst_spanned
  exact fold_ty_of_not_needs (newFolder s none) e he

/-- Witness for the amended C5: the no-op table `empty()` and a concrete
parameter-free entity. -/
theorem subst_noop_identity_witness :
    Substs.empty.is_noop = true ∧
    type_needs_subst (Ty.ty_bare_fn Ty.ty_int Ty.ty_int) = false ∧
    subst Substs.empty (Ty.ty_bare_fn Ty.ty_int Ty.ty_int) =
      some (Ty.ty_bare_fn Ty.ty_int Ty.ty_int, newFolder Substs.empty none) :=
  ⟨by decide, rfl,
   subst_noop_identity Substs.empty (Ty.ty_bare_fn Ty.ty_int Ty.ty_int)
     (by decide) rfl⟩
